import Mathlib

/-!
Verification of the ASR product-recognition prototype.

The development shallowly embeds the orchestration core of the repository
(`src/product_matcher.py` together with the data contracts of
`src/models.py`, the embedding wrapper of `src/embeddings.py` and the
configuration defaults of `config.py`).  The three external collaborators
(Azure OpenAI chat completion, Azure OpenAI embeddings, Azure AI Search
vector search) and the standard-library JSON parser are modelled as an
explicit environment of oracle functions; raised Python exceptions are
modelled with `Except String`, Python floats with `ℚ`.
-/

namespace ASRApp

/-- JSON values, as produced by a successful `json.loads`.  A parsed JSON
object is an association list with the (unique) keys of the dictionary in
order. -/
inductive Json where
  | null : Json
  | bool : Bool → Json
  | num : ℚ → Json
  | str : String → Json
  | arr : List Json → Json
  | obj : List (String × Json) → Json

/-- SearchResult (src/models.py): one hit of the vector search, carrying the
similarity score. -/
structure SearchResult where
  product_id : String
  product_name : String
  score : ℚ
deriving DecidableEq

/-- One element of the list returned by
`ProductMatcher._search_products_function`:
the dict carrying `product_name` and `confidence = round(score, 2)`. -/
structure FuncResult where
  product_name : String
  confidence : ℚ
deriving DecidableEq

/-- One element of the `all_matched_products` accumulator of
`process_transcript`: a `FuncResult` dict after the in-place
`result["context"] = query` update. -/
structure AccEntry where
  product_name : String
  confidence : ℚ
  context : String
deriving DecidableEq

/-- MatchedProduct (src/models.py), after successful pydantic validation:
`confidence` has passed the `ge=0, le=1` bound check and has been rounded to
two decimals by the `round_confidence` validator. -/
structure MatchedProduct where
  product_name : String
  confidence : ℚ
  context : String
deriving DecidableEq

/-- ProcessingResult (src/models.py), after successful pydantic validation
(`raw_text` non-blank). -/
structure ProcessingResult where
  matched_products : List MatchedProduct
  competitor_advantage_mentioned : Bool
  bad_placement_mentioned : Bool
  raw_text : String
deriving DecidableEq

/-- One tool call emitted by the model.  The `arguments` JSON string is
modelled after `json.loads`: the schema declares the single string parameter
`query`, and `query?` is that field of the parsed arguments object (`none`
when absent).  `function_args.get("query", "")` is `query?.getD ""`. -/
structure ToolCall where
  id : String
  name : String
  query? : Option String
deriving DecidableEq

/-- One message of the conversation that `process_transcript` maintains.
`toolResult id name content` models the `role: tool` dict whose `content` is
`json.dumps(search_results)`; the dumped dicts already carry the `context`
key because `result["context"] = query` mutates the very dicts that are
serialized. -/
inductive Message where
  | system : String → Message
  | user : String → Message
  | assistantToolCall : ToolCall → Message
  | toolResult : String → String → List AccEntry → Message
deriving DecidableEq

/-- The message of one chat-completion response
(`response.choices[0].message`).  Python checks `if message.tool_calls:`, so
an absent/`None` tool-call list is the empty list; `content` is read only in
the terminal (tool-call-free) round. -/
structure ModelMessage where
  tool_calls : List ToolCall
  content : String

/-- The external collaborators of the orchestrator, plus the configuration
values read from `config.py`.  `embed` is the embeddings API behind
`EmbeddingGenerator.generate_embedding`, `search` is
`AzureSearchClient.vector_search`, `respond` is
`AzureOpenAIClient.chat_completion`, and `loads` is `json.loads`
(`none` models a raised `json.JSONDecodeError`). -/
structure Env where
  embed : String → Except String (List ℚ)
  search : List ℚ → Nat → Except String (List SearchResult)
  respond : List Message → ModelMessage
  loads : String → Option Json
  topK : Nat
  threshold : ℚ

/-- The mutable state of one orchestration run: the conversation `messages`
list and the `all_matched_products` accumulator. -/
structure LoopState where
  messages : List Message
  acc : List AccEntry
deriving DecidableEq

/-- CONFIDENCE_THRESHOLD default from config.py (`"0.7"`). -/
def CONFIDENCE_THRESHOLD : ℚ := mkRat 7 10

/-- VECTOR_SEARCH_TOP_K default from config.py (`"3"`). -/
def VECTOR_SEARCH_TOP_K : Nat := 3

/-- Python `round(x, 2)` modelled over `ℚ`: round `100 * x` to the nearest
integer and divide back, computed on the numerator and denominator so that
it evaluates by kernel reduction.  `round2_eq_round` below identifies it
with `round (q * 100) / 100`.  (Python rounds the nearest binary double
breaking exact ties to even; no claim exercises a tie.) -/
def round2 (q : ℚ) : ℚ :=
  mkRat ((200 * q.num + (q.den : ℤ)) / (2 * (q.den : ℤ))) 100

/-- Python `str.strip()` on the character list: drop leading and trailing
whitespace.  (Lean's `Char.isWhitespace` covers the ASCII whitespace
Python strips; the exotic Unicode whitespace Python also strips is not
exercised by any claim.) -/
def stripChars (cs : List Char) : List Char :=
  ((cs.dropWhile Char.isWhitespace).reverse.dropWhile Char.isWhitespace).reverse

/-- Python `text.strip()`. -/
def pyStrip (s : String) : String := String.mk (stripChars s.data)

/-- Lookup of a key in a parsed JSON object (Python dict indexing; keys are
unique in a parsed object). -/
def lookupField : List (String × Json) → String → Option Json
  | [], _ => none
  | (k, v) :: rest, key => if k = key then some v else lookupField rest key

/-- Pydantic v1 validation of a value supplied for a `bool` field.  A Python
bool passes through; ints/floats equal to 0 or 1 are coerced.  (Pydantic
additionally coerces a handful of literal strings; no claim exercises
those, and any other value raises ValidationError.) -/
def pydanticBool : Json → Except String Bool
  | .bool b => .ok b
  | .num q =>
      if q = 0 then .ok false
      else if q = 1 then .ok true
      else .error "validation error: value could not be parsed to a boolean"
  | _ => .error "validation error: value could not be parsed to a boolean"

/-- MatchedProduct construction (src/models.py): the `Field(ge=0.0, le=1.0)`
bound check runs on the raw `confidence` first, then the `round_confidence`
validator rounds it to two decimals. -/
def mkMatchedProduct (pn : String) (conf : ℚ) (ctx : String) :
    Except String MatchedProduct :=
  if 0 ≤ conf ∧ conf ≤ 1 then
    .ok { product_name := pn, confidence := round2 conf, context := ctx }
  else .error "validation error: confidence not in [0, 1]"

/-- Python `MatchedProduct(**p)` on one parsed JSON element `p`: `p` must be a
mapping; the three declared fields are required (extra keys are ignored by
pydantic v1's default `Extra.ignore`); `product_name` and `context` must be
strings and `confidence` a number.  (Pydantic v1's numeric-to-string and
string-to-float coercions are not exercised by any claim.) -/
def matchedProductOfJson : Json → Except String MatchedProduct
  | .obj fields =>
      match lookupField fields "product_name" with
      | some (.str pn) =>
          match lookupField fields "confidence" with
          | some (.num conf) =>
              match lookupField fields "context" with
              | some (.str ctx) => mkMatchedProduct pn conf ctx
              | some _ => .error "validation error: context must be a string"
              | none => .error "validation error: context field required"
          | some _ => .error "validation error: confidence must be a number"
          | none => .error "validation error: confidence field required"
      | some _ => .error "validation error: product_name must be a string"
      | none => .error "validation error: product_name field required"
  | _ => .error "TypeError: argument after ** must be a mapping"

/-- The list comprehension `[MatchedProduct(**p) for p in ...]`: elements
are converted left to right and the first raised error propagates. -/
def matchedListOfJson : List Json → Except String (List MatchedProduct)
  | [] => .ok []
  | j :: rest =>
      match matchedProductOfJson j with
      | .error e => .error e
      | .ok m =>
          match matchedListOfJson rest with
          | .error e => .error e
          | .ok ms => .ok (m :: ms)

/-- The `elif "matched_products" in result_data:` branch of
`process_transcript`, for an object `result_data`: absent key leaves the
list empty; a JSON array is converted element by element; a non-iterable
value (or an iterable whose elements are not mappings) raises.  An empty
string or empty object iterates to nothing, like in Python. -/
def jsonMatchedProducts (fields : List (String × Json)) :
    Except String (List MatchedProduct) :=
  match lookupField fields "matched_products" with
  | none => .ok []
  | some (.arr js) => matchedListOfJson js
  | some (.str s) =>
      if s = "" then .ok []
      else .error "TypeError: argument after ** must be a mapping"
  | some (.obj fs) =>
      match fs with
      | [] => .ok []
      | _ => .error "TypeError: argument after ** must be a mapping"
  | some _ => .error "TypeError: object is not iterable"

/-- Contiguous-sublist test on character lists (Python substring
containment). -/
def subChars (needle : List Char) : List Char → Bool
  | [] => needle.isEmpty
  | c :: rest => needle.isPrefixOf (c :: rest) || subChars needle rest

/-- Python `key in result_data` for a parsed JSON value: key membership for
a dict, element membership for a list, substring test for a string, and a
TypeError for the remaining non-container values. -/
def keyInJson (k : String) : Json → Except String Bool
  | .obj fields => .ok (lookupField fields k).isSome
  | .arr xs =>
      .ok (xs.any fun j => match j with | .str s => s = k | _ => false)
  | .str s => .ok (subChars k.data s.data)
  | _ => .error "TypeError: argument is not iterable"

/-- Python `result_data.get(k, False)` for a parsed JSON value: dict lookup
with a default of `False`; a non-dict raises AttributeError. -/
def jsonGetD (j : Json) (k : String) : Except String Json :=
  match j with
  | .obj fields => .ok ((lookupField fields k).getD (.bool false))
  | _ => .error "AttributeError: object has no attribute get"

/-- The comprehension building `MatchedProduct`s from the accumulator
(`process_transcript`, all three places it occurs): entries are validated
left to right, and a pydantic error on any entry propagates. -/
def accToMatched : List AccEntry → Except String (List MatchedProduct)
  | [] => .ok []
  | e :: rest =>
      match mkMatchedProduct e.product_name e.confidence e.context with
      | .error err => .error err
      | .ok m =>
          match accToMatched rest with
          | .error err => .error err
          | .ok ms => .ok (m :: ms)

/-- The value `accToMatched` computes when every accumulator entry passes
validation. -/
def matchedOfAcc (acc : List AccEntry) : List MatchedProduct :=
  acc.map fun e =>
    { product_name := e.product_name, confidence := round2 e.confidence,
      context := e.context }

/-- ProcessingResult construction (src/models.py): the `text_not_empty`
validator rejects a blank `raw_text` and otherwise stores it unchanged. -/
def mkProcessingResult (mps : List MatchedProduct) (comp bad : Bool)
    (raw : String) : Except String ProcessingResult :=
  if raw = "" ∨ pyStrip raw = "" then
    .error "Raw text cannot be empty"
  else
    .ok { matched_products := mps, competitor_advantage_mentioned := comp,
          bad_placement_mentioned := bad, raw_text := raw }

/-- Literal `Char` for the opening curly bracket. -/
def lbrace : Char := Char.ofNat 123

/-- Literal `Char` for the closing curly bracket. -/
def rbrace : Char := Char.ofNat 125

/-- Python `content.rfind(c)`, as an `Option`: index of the last occurrence
of `c`. -/
def rfindIdx (c : Char) (cs : List Char) : Option Nat :=
  match cs.reverse.findIdx? (· == c) with
  | none => none
  | some i => some (cs.length - 1 - i)

/-- JSON extraction of `process_transcript`: take the slice from the first
opening brace to the last closing brace when that slice is non-degenerate
(`json_start >= 0 and json_end > json_start`), otherwise parse the whole
message; `none` models the raised `json.JSONDecodeError`. -/
def extractResultData (loads : String → Option Json) (content : String) :
    Option Json :=
  let cs := content.data
  match cs.findIdx? (· == lbrace), rfindIdx rbrace cs with
  | some s, some e =>
      if s < e + 1 then loads (String.mk ((cs.drop s).take (e + 1 - s)))
      else loads content
  | _, _ => loads content

/-- The parse-success path of the terminal branch of `process_transcript`:
prefer the accumulator when it is non-empty, otherwise fall back to the
`matched_products` array of the parsed JSON; then read the two boolean
flags with `.get(key, False)` through pydantic's bool validation.
Evaluation order matches the source: the matched list is built before the
flags are read. -/
def finalizeParsed (text : String) (acc : List AccEntry)
    (result_data : Json) : Except String ProcessingResult :=
  let mpsE : Except String (List MatchedProduct) :=
    if acc = [] then
      match result_data with
      | .obj fields => jsonMatchedProducts fields
      | j =>
          match keyInJson "matched_products" j with
          | .error e => .error e
          | .ok true => .error "AttributeError: object has no attribute get"
          | .ok false => .ok []
    else accToMatched acc
  match mpsE with
  | .error e => .error e
  | .ok mps =>
      match jsonGetD result_data "competitor_advantage_mentioned" with
      | .error e => .error e
      | .ok cj =>
          match pydanticBool cj with
          | .error e => .error e
          | .ok comp =>
              match jsonGetD result_data "bad_placement_mentioned" with
              | .error e => .error e
              | .ok bj =>
                  match pydanticBool bj with
                  | .error e => .error e
                  | .ok bad => mkProcessingResult mps comp bad text

/-- The accumulator-only result, used both by the `json.JSONDecodeError`
handler and by the iteration-cap exit of `process_transcript`: matched
products from the accumulator, both flags `False`. -/
def capResult (text : String) (acc : List AccEntry) :
    Except String ProcessingResult :=
  match accToMatched acc with
  | .error e => .error e
  | .ok mps => mkProcessingResult mps false false text

/-- The whole terminal branch of `process_transcript`: extract and parse the
JSON; on success reconcile via `finalizeParsed`, on `JSONDecodeError` fall
back to the accumulator-only result.  Errors other than the decode error
(pydantic validation, attribute errors) are NOT caught here and propagate,
exactly as in the source where the inner handler catches only
`json.JSONDecodeError`. -/
def finalize (loads : String → Option Json) (text : String)
    (acc : List AccEntry) (content : String) :
    Except String ProcessingResult :=
  match extractResultData loads content with
  | some result_data => finalizeParsed text acc result_data
  | none => capResult text acc

/-- EmbeddingGenerator.generate_embedding (src/embeddings.py): raises
`ValueError` on blank text, then calls the embeddings API on the stripped
text; API failures propagate as errors. -/
def generate_embedding (env : Env) (text : String) : Except String (List ℚ) :=
  if text = "" ∨ pyStrip text = "" then .error "Text cannot be empty"
  else env.embed (pyStrip text)

/-- The body of the `try` block of
`ProductMatcher._search_products_function`: embed the query, then run the
vector search with `top_k = config.VECTOR_SEARCH_TOP_K`. -/
def resolveQuery (env : Env) (query : String) :
    Except String (List SearchResult) :=
  match generate_embedding env query with
  | .error e => .error e
  | .ok emb => env.search emb env.topK

/-- ProductMatcher._search_products_function: on success, keep the results
whose score reaches `config.CONFIDENCE_THRESHOLD` and convert each to a
dict of product name and confidence, with the score rounded to two
decimals; any exception of the resolution is caught and yields the empty
list. -/
def searchProductsFunction (env : Env) (query : String) : List FuncResult :=
  match resolveQuery env query with
  | .error _ => []
  | .ok search_results =>
      search_results.foldl
        (fun results r =>
          if r.score ≥ env.threshold then
            results ++
              [{ product_name := r.product_name,
                 confidence := round2 r.score }]
          else results) []

/-- Handling of one tool call inside the tool-call branch of
`process_transcript`: only `search_products` is dispatched — the query is
read with `function_args.get("query", "")`, the search results are tagged
with the query as `context` and appended to the accumulator, and the
assistant tool-call message plus the tool-result message are appended to
the conversation.  Any other function name leaves state untouched. -/
def processToolCall (env : Env) (st : LoopState) (tc : ToolCall) : LoopState :=
  if tc.name = "search_products" then
    let query := tc.query?.getD ""
    let search_results := searchProductsFunction env query
    let tagged : List AccEntry := search_results.map fun r =>
      { product_name := r.product_name, confidence := r.confidence,
        context := query }
    { messages := st.messages ++
        [.assistantToolCall tc, .toolResult tc.id tc.name tagged],
      acc := st.acc ++ tagged }
  else st

/-- One tool-call round: the requested invocations are processed one at a
time, in the order the model emitted them. -/
def advanceRound (env : Env) (calls : List ToolCall) (st : LoopState) :
    LoopState :=
  calls.foldl (processToolCall env) st

/-- The `while iteration < max_iterations` loop of `process_transcript`,
with the remaining iteration budget as fuel.  The second component counts
the chat-completion round-trips performed.  Fuel exhaustion is the
max-iterations exit: the accumulator-only result. -/
def runLoop (env : Env) (text : String) :
    LoopState → Nat → Except String ProcessingResult × Nat
  | st, 0 => (capResult text st.acc, 0)
  | st, n + 1 =>
      let msg := env.respond st.messages
      if msg.tool_calls = [] then
        (finalize env.loads text st.acc msg.content, 1)
      else
        let rest := runLoop env text (advanceRound env msg.tool_calls st) n
        (rest.1, rest.2 + 1)

/-- System prompt of src/product_matcher.py (verbatim). -/
def SYSTEM_PROMPT : String :=
  "Jsi asistent pro identifikaci produktů z českých transkriptů obchodních návštěv.\n\nTvým úkolem je:\n1. Identifikovat zmínky o produktech v textu a pro každou zmínku zavolat funkci search_products\n2. Detekovat zmínky o výhodách konkurence\n3. Detekovat zmínky o špatném umístění produktů\n\nPRAVIDLA PRO VYHLEDÁVÁNÍ PRODUKTŮ:\n- Pro každou zmínku produktu v textu zavolej funkci search_products s vhodným dotazem\n- Dotaz by měl obsahovat: značku, typ produktu, parametry (objem, specifikace)\n- Příklady dobrých dotazů:\n  * \"Castrol Magnatec 5W-30 A5 5 litrů\"\n  * \"Sheron ostřikovač eMotion 4 litry\"\n  * \"Eurol Syntence 0W-20 5 litrů\"\n\nPRAVIDLA PRO DETEKCI VÝHOD KONKURENCE:\nHledej zmínky typu:\n- \"konkurence má akci\"\n- \"konkurence má výraznější obal\"\n- \"konkurence má lepší cenu\"\n- \"konkurenční produkt je lépe vidět\"\n- slovo \"konkurence\" nebo \"konkurenční\" v kontextu výhody\n\nPRAVIDLA PRO DETEKCI ŠPATNÉHO UMÍSTĚNÍ:\nHledej zmínky typu:\n- \"je schovaný\" / \"je schovaná\"\n- \"není dobře vidět\"\n- \"není vidět\"\n- \"špatně čitelné cenovky\"\n- \"špatně umístěný\"\n- \"částečně schovaný\"\n- \"není úplně vidět\"\n- \"chybí na polici\"\n- \"mimo správné místo\"\n\nFORMÁT VÝSTUPU:\nPo dokončení všech vyhledávání vrať strukturovaný JSON s:\n\x7b\n  \"matched_products\": [\n    \x7b\n      \"product_name\": \"název nalezeného produktu\",\n      \"confidence\": 0.85,\n      \"context\": \"originální zmínka z textu\"\n    \x7d\n  ],\n  \"competitor_advantage_mentioned\": true/false,\n  \"bad_placement_mentioned\": true/false\n\x7d\n\nBuď pečlivý a systematický. Nezapomeň na žádnou zmínku produktu v textu.\n"

/-- The two messages `process_transcript` starts the conversation with. -/
def initMessages (text : String) : List Message :=
  [.system SYSTEM_PROMPT, .user ("Analyzuj tento transkript:\n\n" ++ text)]

/-- The iteration cap of `process_transcript` (`max_iterations = 10`). -/
def max_iterations : Nat := 10

/-- ProductMatcher.process_transcript: reject blank input before anything
else, then run the bounded tool-calling loop from the initial conversation.
The first component is the returned `ProcessingResult` (or the propagated
exception), the second the number of chat-completion round-trips made. -/
def process_transcript (env : Env) (text : String) :
    Except String ProcessingResult × Nat :=
  if text = "" ∨ pyStrip text = "" then
    (.error "Transcript text cannot be empty", 0)
  else
    runLoop env text { messages := initMessages text, acc := [] }
      max_iterations

/-- The loop state after `n` tool-call rounds, when every round requests
tool calls (used to describe the iteration-cap outcome). -/
def iterRounds (env : Env) : LoopState → Nat → LoopState
  | st, 0 => st
  | st, n + 1 =>
      iterRounds env (advanceRound env (env.respond st.messages).tool_calls st) n

/-- Every accumulator entry carries a confidence that pydantic's
`ge=0, le=1` bound check accepts. -/
def accValid (acc : List AccEntry) : Prop :=
  ∀ e ∈ acc, 0 ≤ e.confidence ∧ e.confidence ≤ 1

/-- The vector-search collaborator only reports similarity scores in
`[0, 1]` (the contract of Azure AI Search cosine scoring assumed by the
data model). -/
def SearchWellScored (env : Env) : Prop :=
  ∀ v k rs, env.search v k = .ok rs → ∀ r ∈ rs, 0 ≤ r.score ∧ r.score ≤ 1


/-- Identification of the computational `round2` with Mathlib rounding:
`round2 q` is `round (q * 100) / 100`. -/
theorem round2_eq_round (q : ℚ) :
    round2 q = ((round (q * 100) : ℤ) : ℚ) / 100 := by
  have hden : (q.den : ℚ) ≠ 0 := by
    exact_mod_cast q.den_nz
  have hq : (q.num : ℚ) = q * (q.den : ℚ) :=
    (div_eq_iff hden).mp (Rat.num_div_den q)
  have hmk : round2 q
      = (((200 * q.num + (q.den : ℤ)) / (2 * (q.den : ℤ)) : ℤ) : ℚ) / (100 : ℚ) := by
    rw [round2, Rat.mkRat_eq_divInt, Rat.divInt_eq_div]
    norm_num
  have h1 : q * 100 + 1/2
      = (((200 * q.num + (q.den : ℤ)) : ℤ) : ℚ) / ((2 * q.den : ℕ) : ℚ) := by
    have hden2 : ((2 * q.den : ℕ) : ℚ) ≠ 0 := by
      push_cast
      positivity
    rw [eq_div_iff hden2]
    push_cast
    ring_nf
    linear_combination (-200 : ℚ) * hq
  have hfloor : round (q * 100) = (200 * q.num + (q.den : ℤ)) / (2 * (q.den : ℤ)) := by
    rw [round_eq, h1, Rat.floor_intCast_div_natCast]
    push_cast
    ring_nf
  rw [hmk, hfloor]

/-- Rounding to two decimals can move a value up by at most half a
hundredth. -/
theorem round2_le (q : ℚ) : round2 q ≤ q + 1/200 := by
  rw [round2_eq_round]
  have h1 : ((round (q * 100) : ℤ) : ℚ) ≤ q * 100 + 1/2 := by
    rw [round_eq]
    exact Int.floor_le _
  linarith

/-- Rounding preserves non-negativity. -/
theorem round2_nonneg {q : ℚ} (h : 0 ≤ q) : 0 ≤ round2 q := by
  rw [round2_eq_round]
  have h1 : (0 : ℤ) ≤ round (q * 100) := by
    rw [round_eq]
    apply Int.floor_nonneg.mpr
    linarith
  have h2 : (0 : ℚ) ≤ ((round (q * 100) : ℤ) : ℚ) := by exact_mod_cast h1
  linarith

/-- Rounding a value that is at most one yields at most one. -/
theorem round2_le_one {q : ℚ} (h : q ≤ 1) : round2 q ≤ 1 := by
  rw [round2_eq_round]
  have h1 : round (q * 100) < 101 := by
    rw [round_eq]
    apply Int.floor_lt.mpr
    push_cast
    linarith
  have h2 : round (q * 100) ≤ 100 := by omega
  have h3 : ((round (q * 100) : ℤ) : ℚ) ≤ 100 := by exact_mod_cast h2
  linarith


/-- MatchedProduct construction succeeds on an in-range confidence and
stores it rounded. -/
theorem mkMatchedProduct_ok (pn : String) (conf : ℚ) (ctx : String)
    (h0 : 0 ≤ conf) (h1 : conf ≤ 1) :
    mkMatchedProduct pn conf ctx =
      .ok { product_name := pn, confidence := round2 conf, context := ctx } := by
  rw [mkMatchedProduct, if_pos (And.intro h0 h1)]

/-- When every accumulator entry is in range, the accumulator conversion
succeeds and is the entrywise rounding map. -/
theorem accToMatched_eq {acc : List AccEntry} (h : accValid acc) :
    accToMatched acc = .ok (matchedOfAcc acc) := by
  induction acc with
  | nil => rfl
  | cons e rest ih =>
      have he := h e (by simp)
      have hrest : accValid rest := fun x hx => h x (by simp [hx])
      simp only [accToMatched, mkMatchedProduct_ok _ _ _ he.1 he.2, ih hrest,
        matchedOfAcc, List.map]

/-- ProcessingResult construction succeeds on non-blank raw text. -/
theorem mkProcessingResult_ok (mps : List MatchedProduct) (c b : Bool)
    (raw : String) (h : ¬ pyStrip raw = "") :
    mkProcessingResult mps c b raw =
      .ok { matched_products := mps, competitor_advantage_mentioned := c,
            bad_placement_mentioned := b, raw_text := raw } := by
  rw [mkProcessingResult, if_neg]
  rintro (h1 | h2)
  · subst h1
    exact h rfl
  · exact h h2

/-- The accumulator-only result, evaluated: all accumulator entries with
rounded confidences, both flags false. -/
theorem capResult_eq (text : String) {acc : List AccEntry}
    (hacc : accValid acc) (htext : ¬ pyStrip text = "") :
    capResult text acc =
      .ok { matched_products := matchedOfAcc acc,
            competitor_advantage_mentioned := false,
            bad_placement_mentioned := false, raw_text := text } := by
  unfold capResult
  rw [accToMatched_eq hacc]
  exact mkProcessingResult_ok _ _ _ _ htext

/-- A round in which the model returns no tool calls is terminal: one
model call, and the result is the reconciliation of the final message. -/
theorem runLoop_terminal (env : Env) (text : String) (st : LoopState) (n : Nat)
    (hterm : (env.respond st.messages).tool_calls = []) :
    runLoop env text st (n + 1) =
      (finalize env.loads text st.acc (env.respond st.messages).content, 1) := by
  simp only [runLoop]
  rw [if_pos hterm]

/-- A round with tool calls processes them and continues the loop,
spending one model call. -/
theorem runLoop_step (env : Env) (text : String) (st : LoopState) (n : Nat)
    (hcalls : (env.respond st.messages).tool_calls ≠ []) :
    runLoop env text st (n + 1) =
      ((runLoop env text
          (advanceRound env (env.respond st.messages).tool_calls st) n).1,
       (runLoop env text
          (advanceRound env (env.respond st.messages).tool_calls st) n).2 + 1) := by
  simp only [runLoop]
  rw [if_neg hcalls]

/-- When no JSON can be located and parsed, the terminal branch falls
back to the accumulator-only result. -/
theorem finalize_parse_none (loads : String → Option Json) (text : String)
    (acc : List AccEntry) (content : String)
    (h : extractResultData loads content = none) :
    finalize loads text acc content = capResult text acc := by
  unfold finalize
  rw [h]

/-- When a JSON value is located and parsed, the terminal branch
reconciles through `finalizeParsed`. -/
theorem finalize_parse_some (loads : String → Option Json) (text : String)
    (acc : List AccEntry) (content : String) (rd : Json)
    (h : extractResultData loads content = some rd) :
    finalize loads text acc content = finalizeParsed text acc rd := by
  unfold finalize
  rw [h]

/-- Evaluation of the parse-success reconciliation on a parsed JSON
object, given the values of its three reads. -/
theorem finalizeParsed_obj (text : String) (acc : List AccEntry)
    (fields : List (String × Json)) (cb bb : Bool) (mps : List MatchedProduct)
    (hmps : (if acc = [] then jsonMatchedProducts fields else accToMatched acc)
      = .ok mps)
    (hcb : pydanticBool
      ((lookupField fields "competitor_advantage_mentioned").getD (.bool false))
      = .ok cb)
    (hbb : pydanticBool
      ((lookupField fields "bad_placement_mentioned").getD (.bool false))
      = .ok bb) :
    finalizeParsed text acc (.obj fields) = mkProcessingResult mps cb bb text := by
  simp only [finalizeParsed, jsonGetD, hmps, hcb, hbb]


/-- The conversion loop of `_search_products_function`: results at or
above the threshold, in order, with rounded scores. -/
def keptResults (th : ℚ) : List SearchResult → List FuncResult
  | [] => []
  | r :: rest =>
      if r.score ≥ th then
        { product_name := r.product_name, confidence := round2 r.score }
          :: keptResults th rest
      else keptResults th rest

/-- The source's append-fold computes `keptResults`. -/
theorem foldl_keptResults (th : ℚ) (rs : List SearchResult)
    (init : List FuncResult) :
    rs.foldl (fun results r =>
      if r.score ≥ th then
        results ++ [{ product_name := r.product_name,
                      confidence := round2 r.score }]
      else results) init = init ++ keptResults th rs := by
  induction rs generalizing init with
  | nil => simp [keptResults]
  | cons r rest ih =>
      by_cases h : th ≤ r.score
      · simp only [List.foldl_cons, if_pos h, ih, keptResults, List.append_assoc,
          List.singleton_append]
      · simp only [List.foldl_cons, if_neg h, ih, keptResults]

/-- Lemma: `keptResults` is the filter of the at-threshold results mapped
through rounding. -/
theorem keptResults_eq_filterMap (th : ℚ) (rs : List SearchResult) :
    keptResults th rs = (rs.filter fun r => decide (th ≤ r.score)).map
      fun r => { product_name := r.product_name, confidence := round2 r.score } := by
  induction rs with
  | nil => rfl
  | cons r rest ih =>
      by_cases h : th ≤ r.score
      · simp [keptResults, if_pos h, List.filter_cons, h, ih]
      · simp [keptResults, if_neg h, List.filter_cons, h, ih]

/-- Membership in `keptResults`: exactly the at-threshold results, with
confidence the rounded score. -/
theorem mem_keptResults {th : ℚ} {rs : List SearchResult} {f : FuncResult} :
    f ∈ keptResults th rs ↔ ∃ r ∈ rs, th ≤ r.score ∧
      f = { product_name := r.product_name, confidence := round2 r.score } := by
  rw [keptResults_eq_filterMap]
  simp only [List.mem_map, List.mem_filter, decide_eq_true_eq]
  constructor
  · rintro ⟨r, ⟨hr, hs⟩, rfl⟩
    exact ⟨r, hr, hs, rfl⟩
  · rintro ⟨r, hr, hs, rfl⟩
    exact ⟨r, ⟨hr, hs⟩, rfl⟩

/-- On a successful resolution, the search tool returns the thresholded
conversion of the vector-search results. -/
theorem searchProductsFunction_ok {env : Env} {q : String}
    {rs : List SearchResult} (h : resolveQuery env q = .ok rs) :
    searchProductsFunction env q = keptResults env.threshold rs := by
  unfold searchProductsFunction
  rw [h]
  exact foldl_keptResults env.threshold rs []

/-- Any exception of the resolution is caught and yields the empty
candidate list. -/
theorem searchProductsFunction_err {env : Env} {q : String} {e : String}
    (h : resolveQuery env q = .error e) :
    searchProductsFunction env q = [] := by
  unfold searchProductsFunction
  rw [h]

/-- A successful resolution means the vector-search collaborator
returned these results. -/
theorem resolveQuery_ok_search {env : Env} {q : String} {rs : List SearchResult}
    (h : resolveQuery env q = .ok rs) :
    ∃ emb, env.search emb env.topK = .ok rs := by
  unfold resolveQuery at h
  cases hg : generate_embedding env q with
  | error e => rw [hg] at h; exact absurd h (by simp)
  | ok emb => rw [hg] at h; exact ⟨emb, h⟩

/-- Evaluation of one `search_products` tool call: candidates are tagged
with the query as context, appended to the accumulator, and the two
conversation messages are appended. -/
theorem processToolCall_search (env : Env) (st : LoopState) (i : String)
    (q? : Option String) :
    processToolCall env st { id := i, name := "search_products", query? := q? } =
      { messages := st.messages ++
          [Message.assistantToolCall
            { id := i, name := "search_products", query? := q? },
           Message.toolResult i "search_products"
            ((searchProductsFunction env (q?.getD "")).map fun r =>
              { product_name := r.product_name, confidence := r.confidence,
                context := q?.getD "" })],
        acc := st.acc ++
          ((searchProductsFunction env (q?.getD "")).map fun r =>
            { product_name := r.product_name, confidence := r.confidence,
              context := q?.getD "" }) } := by
  rfl

/-- A tool call whose function name is not `search_products` leaves the
loop state untouched. -/
theorem processToolCall_other {env : Env} {st : LoopState} {tc : ToolCall}
    (h : tc.name ≠ "search_products") :
    processToolCall env st tc = st := by
  rw [processToolCall, if_neg h]

/-- The embedding wrapper rejects the empty text before any API call. -/
theorem generate_embedding_blank (env : Env) :
    generate_embedding env "" = .error "Text cannot be empty" := by
  rw [generate_embedding, if_pos (Or.inl rfl)]

/-- An empty query resolves to zero candidates: the embedding guard
raises and the handler returns the empty list. -/
theorem searchProductsFunction_blank (env : Env) :
    searchProductsFunction env "" = [] := by
  apply searchProductsFunction_err (e := "Text cannot be empty")
  unfold resolveQuery
  rw [generate_embedding_blank]


/-- With a well-scored search collaborator, processing a tool call keeps
every accumulator confidence in range. -/
theorem accValid_processToolCall {env : Env} {st : LoopState} {tc : ToolCall}
    (hws : SearchWellScored env) (h : accValid st.acc) :
    accValid (processToolCall env st tc).acc := by
  unfold processToolCall
  by_cases hn : tc.name = "search_products"
  · rw [if_pos hn]
    intro e he
    rcases List.mem_append.mp he with he | he
    · exact h e he
    · rcases List.mem_map.mp he with ⟨f, hf, rfl⟩
      cases hr : resolveQuery env (tc.query?.getD "") with
      | error err =>
          rw [searchProductsFunction_err hr] at hf
          cases hf
      | ok rs =>
          rw [searchProductsFunction_ok hr] at hf
          rcases mem_keptResults.mp hf with ⟨r, hrs, _, rfl⟩
          rcases resolveQuery_ok_search hr with ⟨emb, hsearch⟩
          rcases hws emb env.topK rs hsearch r hrs with ⟨h0, h1⟩
          exact ⟨round2_nonneg h0, round2_le_one h1⟩
  · rw [if_neg hn]
    exact h

/-- Accumulator validity is preserved across one tool-call round. -/
theorem accValid_advanceRound {env : Env} (hws : SearchWellScored env)
    (calls : List ToolCall) :
    ∀ st : LoopState, accValid st.acc → accValid (advanceRound env calls st).acc := by
  induction calls with
  | nil => intro st h; exact h
  | cons tc rest ih =>
      intro st h
      exact ih (processToolCall env st tc) (accValid_processToolCall hws h)

/-- Accumulator validity is preserved across any number of rounds. -/
theorem accValid_iterRounds {env : Env} (hws : SearchWellScored env) :
    ∀ (n : Nat) (st : LoopState), accValid st.acc →
      accValid (iterRounds env st n).acc := by
  intro n
  induction n with
  | zero => intro st h; exact h
  | succ n ih =>
      intro st h
      exact ih _ (accValid_advanceRound hws _ st h)

/-- When the model never stops requesting tools, the loop runs its whole
budget and exits through the accumulator-only branch. -/
theorem runLoop_no_terminal {env : Env} {text : String}
    (hloop : ∀ msgs, (env.respond msgs).tool_calls ≠ []) :
    ∀ (n : Nat) (st : LoopState),
      runLoop env text st n = (capResult text (iterRounds env st n).acc, n) := by
  intro n
  induction n with
  | zero => intro st; rfl
  | succ n ih =>
      intro st
      rw [runLoop_step env text st n (hloop _), ih]
      rfl

/-- The loop performs at most as many model calls as its fuel. -/
theorem runLoop_count_le (env : Env) (text : String) :
    ∀ (n : Nat) (st : LoopState), (runLoop env text st n).2 ≤ n := by
  intro n
  induction n with
  | zero => intro st; exact Nat.le_refl 0
  | succ n ih =>
      intro st
      by_cases hterm : (env.respond st.messages).tool_calls = []
      · rw [runLoop_terminal env text st n hterm]
        exact Nat.succ_le_succ (Nat.zero_le n)
      · rw [runLoop_step env text st n hterm]
        exact Nat.succ_le_succ (ih _)


/-- Environment with inert collaborators, used to witness claims at
concrete inputs. -/
def envBase : Env where
  embed := fun _ => .ok []
  search := fun _ _ => .ok []
  respond := fun _ => { tool_calls := [], content := "" }
  loads := fun _ => none
  topK := VECTOR_SEARCH_TOP_K
  threshold := CONFIDENCE_THRESHOLD

/-- C3: for every invocation of `process_transcript`, the orchestration
loop invokes the language-model service at most 10 times, regardless of the
tool calls requested in each round; the loop always terminates (the model
is total, the call count is its second component). -/
theorem model_roundtrips_bounded (env : Env) (text : String) :
    (process_transcript env text).2 ≤ 10 := by
  unfold process_transcript
  by_cases h : text = "" ∨ pyStrip text = ""
  · rw [if_pos h]
    exact Nat.zero_le 10
  · rw [if_neg h]
    exact runLoop_count_le env text max_iterations _

/-- C6: for every empty or whitespace-only transcript,
`process_transcript` fails with the `ValueError` before any collaborator
call: zero model round-trips are made, and the guard precedes the
construction of any conversation state. -/
theorem blank_input_rejected (env : Env) (text : String)
    (h : text = "" ∨ pyStrip text = "") :
    process_transcript env text = (.error "Transcript text cannot be empty", 0) := by
  unfold process_transcript
  rw [if_pos h]

/-- Witness for C6 at the two-space transcript. -/
theorem blank_input_rejected_witness :
    ("  " = "" ∨ pyStrip "  " = "") ∧
      process_transcript envBase "  " = (.error "Transcript text cannot be empty", 0) :=
  ⟨Or.inr rfl, blank_input_rejected envBase "  " (Or.inr rfl)⟩

/-- C1: at any terminal round of the `process_transcript` loop (`runLoop`
reached with any conversation and accumulator) whose message parses to a
JSON object: if the accumulator is non-empty, `matched_products` is exactly
the accumulator in order (the JSON's own array is ignored — the conclusion
does not consult it); if the accumulator is empty, the list is built from
the JSON's `matched_products` array when present and is empty otherwise;
the two booleans are read from the JSON, defaulting to false when absent. -/
theorem terminal_json_reconciliation (env : Env) (text : String)
    (st : LoopState) (n : Nat) (fields : List (String × Json)) (cb bb : Bool)
    (jmps : List MatchedProduct)
    (hterm : (env.respond st.messages).tool_calls = [])
    (hparse : extractResultData env.loads (env.respond st.messages).content
      = some (.obj fields))
    (htext : ¬ pyStrip text = "")
    (hacc : accValid st.acc)
    (hcb : pydanticBool
      ((lookupField fields "competitor_advantage_mentioned").getD (.bool false))
      = .ok cb)
    (hbb : pydanticBool
      ((lookupField fields "bad_placement_mentioned").getD (.bool false))
      = .ok bb)
    (hjm : st.acc = [] → jsonMatchedProducts fields = .ok jmps) :
    runLoop env text st (n + 1) =
      (.ok { matched_products :=
               if st.acc = [] then jmps else matchedOfAcc st.acc,
             competitor_advantage_mentioned := cb,
             bad_placement_mentioned := bb,
             raw_text := text }, 1) := by
  rw [runLoop_terminal env text st n hterm,
      finalize_parse_some _ _ _ _ _ hparse]
  by_cases hacc0 : st.acc = []
  · rw [finalizeParsed_obj text st.acc fields cb bb jmps
        (by rw [if_pos hacc0]; exact hjm hacc0) hcb hbb,
      mkProcessingResult_ok _ _ _ _ htext, if_pos hacc0]
  · rw [finalizeParsed_obj text st.acc fields cb bb (matchedOfAcc st.acc)
        (by rw [if_neg hacc0]; exact accToMatched_eq hacc) hcb hbb,
      mkProcessingResult_ok _ _ _ _ htext, if_neg hacc0]

/-- Environment whose model answers terminally and whose JSON parse
yields an object setting the competitor flag. -/
def envC1 : Env where
  embed := fun _ => .ok []
  search := fun _ _ => .ok []
  respond := fun _ => { tool_calls := [], content := "result" }
  loads := fun _ => some (.obj [("competitor_advantage_mentioned", .bool true)])
  topK := VECTOR_SEARCH_TOP_K
  threshold := CONFIDENCE_THRESHOLD

/-- Witness for C1: an immediate terminal round whose JSON object sets
the competitor flag and has no `matched_products` key. -/
theorem terminal_json_reconciliation_witness :
    runLoop envC1 "t" { messages := [], acc := [] } 1 =
      (.ok { matched_products := [], competitor_advantage_mentioned := true,
             bad_placement_mentioned := false, raw_text := "t" }, 1) := by
  have h := terminal_json_reconciliation envC1 "t" { messages := [], acc := [] } 0
    [("competitor_advantage_mentioned", Json.bool true)] true false []
    rfl rfl (by decide) (by intro e he; cases he) rfl rfl (fun _ => rfl)
  simpa using h


/-- C7: at any terminal round whose message yields no parseable JSON
(the located brace-to-brace slice, or failing that the whole message, fails
to parse), the run still returns a ProcessingResult carrying all
accumulator-derived matches, with both booleans false; the parse failure is
not surfaced. -/
theorem parse_failure_fallback (env : Env) (text : String) (st : LoopState)
    (n : Nat)
    (hterm : (env.respond st.messages).tool_calls = [])
    (hparse : extractResultData env.loads (env.respond st.messages).content = none)
    (htext : ¬ pyStrip text = "")
    (hacc : accValid st.acc) :
    runLoop env text st (n + 1) =
      (.ok { matched_products := matchedOfAcc st.acc,
             competitor_advantage_mentioned := false,
             bad_placement_mentioned := false, raw_text := text }, 1) := by
  rw [runLoop_terminal env text st n hterm, finalize_parse_none _ _ _ _ hparse,
      capResult_eq text hacc htext]

/-- Witness for C7: unparsable terminal message with one accumulated
match. -/
theorem parse_failure_fallback_witness :
    runLoop envBase "t"
      { messages := [],
        acc := [{ product_name := "P", confidence := mkRat 9 10, context := "q" }] } 1 =
      (.ok { matched_products :=
               [{ product_name := "P", confidence := mkRat 9 10, context := "q" }],
             competitor_advantage_mentioned := false,
             bad_placement_mentioned := false, raw_text := "t" }, 1) := by
  rw [parse_failure_fallback envBase "t"
    { messages := [],
      acc := [{ product_name := "P", confidence := mkRat 9 10, context := "q" }] } 0
    rfl rfl (by decide)
    (fun e he => by
      rcases List.mem_singleton.mp he with rfl
      exact ⟨by decide, by decide⟩)]
  rfl

/-- C8: when the model requests tool calls on every round, the iteration
cap is reached and `process_transcript` returns normally after exactly 10
model calls, with the result built from the accumulator alone and both
flags false.  The well-scored hypothesis on the search collaborator keeps
the accumulated confidences inside pydantic's [0, 1] bounds. -/
theorem iteration_cap_degraded (env : Env) (text : String)
    (hws : SearchWellScored env)
    (hloop : ∀ msgs, (env.respond msgs).tool_calls ≠ [])
    (htext : ¬ pyStrip text = "") :
    process_transcript env text =
      (.ok { matched_products := matchedOfAcc
               (iterRounds env { messages := initMessages text, acc := [] } 10).acc,
             competitor_advantage_mentioned := false,
             bad_placement_mentioned := false, raw_text := text }, 10) := by
  have hg : ¬ (text = "" ∨ pyStrip text = "") := by
    rintro (h1 | h2)
    · subst h1
      exact htext rfl
    · exact htext h2
  have hv : accValid (iterRounds env { messages := initMessages text, acc := [] }
      max_iterations).acc :=
    accValid_iterRounds hws max_iterations _ (fun e he => absurd he (List.not_mem_nil e))
  unfold process_transcript
  rw [if_neg hg, runLoop_no_terminal hloop max_iterations _, capResult_eq text hv htext]
  rfl

/-- Environment whose model requests an unknown tool on every round. -/
def envCap : Env where
  embed := fun _ => .ok []
  search := fun _ _ => .ok []
  respond := fun _ =>
    { tool_calls := [{ id := "1", name := "other", query? := none }], content := "" }
  loads := fun _ => none
  topK := VECTOR_SEARCH_TOP_K
  threshold := CONFIDENCE_THRESHOLD

/-- Witness for C8: a model that always requests an unknown tool runs
all 10 rounds and yields the degraded empty result. -/
theorem iteration_cap_degraded_witness :
    process_transcript envCap "t" =
      (.ok { matched_products := [], competitor_advantage_mentioned := false,
             bad_placement_mentioned := false, raw_text := "t" }, 10) := by
  have hws : SearchWellScored envCap := by
    intro v k rs hok r hr
    injection hok with h
    subst h
    cases hr
  have h := iteration_cap_degraded envCap "t" hws
    (fun msgs => by simp [envCap]) (by decide)
  rw [h]
  rfl

/-- C9: at a terminal round with valid JSON, an empty accumulator and a
`matched_products` entry that fails MatchedProduct validation, the
validation error propagates out of the loop instead of producing a
degraded result — the parse-failure handler catches only the JSON decode
error. -/
theorem schema_violation_raises (env : Env) (text : String) (st : LoopState)
    (n : Nat) (fields : List (String × Json)) (e : String)
    (hterm : (env.respond st.messages).tool_calls = [])
    (hparse : extractResultData env.loads (env.respond st.messages).content
      = some (.obj fields))
    (hacc : st.acc = [])
    (hbad : jsonMatchedProducts fields = .error e) :
    runLoop env text st (n + 1) = (.error e, 1) := by
  rw [runLoop_terminal env text st n hterm, finalize_parse_some _ _ _ _ _ hparse]
  simp only [finalizeParsed, hacc, hbad]
  rfl

/-- Environment whose terminal JSON carries an out-of-range confidence
inside `matched_products`. -/
def envC9 : Env where
  embed := fun _ => .ok []
  search := fun _ _ => .ok []
  respond := fun _ => { tool_calls := [], content := "result" }
  loads := fun _ => some (.obj
    [("matched_products", .arr [.obj
      [("product_name", .str "P"), ("confidence", .num 2),
       ("context", .str "c")]])])
  topK := VECTOR_SEARCH_TOP_K
  threshold := CONFIDENCE_THRESHOLD

/-- Witness for C9: a parsed `matched_products` entry with confidence 2
makes the run raise the bound-check error. -/
theorem schema_violation_raises_witness :
    runLoop envC9 "t" { messages := [], acc := [] } 1 =
      (.error "validation error: confidence not in [0, 1]", 1) := by
  exact schema_violation_raises envC9 "t" { messages := [], acc := [] } 0
    [("matched_products", .arr [.obj
      [("product_name", .str "P"), ("confidence", .num 2),
       ("context", .str "c")]])]
    "validation error: confidence not in [0, 1]" rfl rfl rfl rfl


/-- C10: a tool invocation with any function name other than
`search_products` appends no messages, leaves the accumulator unchanged,
and is not terminal: the loop proceeds to the next model round-trip with
the state unchanged by that invocation. -/
theorem unknown_tool_ignored (env : Env) (st : LoopState) (tc : ToolCall)
    (hname : tc.name ≠ "search_products") :
    processToolCall env st tc = st ∧
    ∀ (text : String) (n : Nat),
      (env.respond st.messages).tool_calls = [tc] →
      runLoop env text st (n + 1) =
        ((runLoop env text st n).1, (runLoop env text st n).2 + 1) := by
  refine ⟨processToolCall_other hname, ?_⟩
  intro text n hcalls
  have h := runLoop_step env text st n (by rw [hcalls]; simp)
  rw [hcalls] at h
  have hadv : advanceRound env [tc] st = st := by
    unfold advanceRound
    simp only [List.foldl_cons, List.foldl_nil]
    exact processToolCall_other hname
  rw [hadv] at h
  exact h

/-- Witness for C10 at a concrete unknown-name tool call. -/
theorem unknown_tool_ignored_witness :
    processToolCall envCap { messages := [], acc := [] }
        { id := "1", name := "other", query? := none } =
      { messages := [], acc := [] } ∧
    runLoop envCap "t" { messages := [], acc := [] } 1 =
      ((runLoop envCap "t" { messages := [], acc := [] } 0).1,
       (runLoop envCap "t" { messages := [], acc := [] } 0).2 + 1) := by
  have h := unknown_tool_ignored envCap { messages := [], acc := [] }
    { id := "1", name := "other", query? := none } (by decide)
  exact ⟨h.1, h.2 "t" 0 rfl⟩

/-- C4: an exception raised during resolution of a `search_products`
query is caught locally and yields zero candidates — the accumulator is
unchanged and the conversation records an empty result list, so the loop
continues; a missing query argument is read as the empty string, and the
empty string always resolves to zero candidates (the embedding guard
raises, and the handler swallows it).  `searchProductsFunction` is total,
so no search or embedding failure escapes to the caller. -/
theorem search_failure_swallowed (env : Env) (st : LoopState) (i q e : String)
    (herr : resolveQuery env q = .error e) :
    searchProductsFunction env q = [] ∧
    processToolCall env st { id := i, name := "search_products", query? := some q } =
      { messages := st.messages ++
          [Message.assistantToolCall
            { id := i, name := "search_products", query? := some q },
           Message.toolResult i "search_products" []],
        acc := st.acc } ∧
    searchProductsFunction env "" = [] ∧
    (processToolCall env st
      { id := i, name := "search_products", query? := none }).acc = st.acc := by
  have h1 := searchProductsFunction_err herr
  refine ⟨h1, ?_, searchProductsFunction_blank env, ?_⟩
  · rw [processToolCall_search env st i (some q)]
    simp [h1]
  · rw [processToolCall_search env st i none]
    simp [searchProductsFunction_blank env]

/-- Environment whose embedding collaborator always raises. -/
def envC4 : Env where
  embed := fun _ => .error "embedding service down"
  search := fun _ _ => .ok []
  respond := fun _ => { tool_calls := [], content := "" }
  loads := fun _ => none
  topK := VECTOR_SEARCH_TOP_K
  threshold := CONFIDENCE_THRESHOLD

/-- Witness for C4: an embedding collaborator that always raises. -/
theorem search_failure_swallowed_witness :
    searchProductsFunction envC4 "q" = [] ∧
    (processToolCall envC4 { messages := [], acc := [] }
      { id := "1", name := "search_products", query? := none }).acc = [] := by
  have h := search_failure_swallowed envC4 { messages := [], acc := [] }
    "1" "q" "embedding service down" rfl
  exact ⟨h.1, h.2.2.2⟩

/-- C2: for a batch of vector-search results for one query, the
candidates strictly below the threshold are excluded and each candidate at
or above it is appended to the accumulator with confidence the score
rounded to two decimals and context the query; the filter is pointwise, so
inclusion of one candidate is independent of the others in the batch. -/
theorem threshold_filtering (env : Env) (st : LoopState) (i q : String)
    (rs : List SearchResult) (hres : resolveQuery env q = .ok rs) :
    searchProductsFunction env q =
      (rs.filter fun r => decide (env.threshold ≤ r.score)).map
        (fun r => { product_name := r.product_name,
                    confidence := round2 r.score }) ∧
    (processToolCall env st
        { id := i, name := "search_products", query? := some q }).acc =
      st.acc ++
        (rs.filter fun r => decide (env.threshold ≤ r.score)).map
          (fun r => { product_name := r.product_name,
                      confidence := round2 r.score, context := q }) := by
  have h1 : searchProductsFunction env q = keptResults env.threshold rs :=
    searchProductsFunction_ok hres
  constructor
  · rw [h1, keptResults_eq_filterMap]
  · rw [processToolCall_search env st i (some q)]
    show st.acc ++ _ = _
    simp only [Option.getD_some]
    rw [h1, keptResults_eq_filterMap, List.map_map]
    rfl

/-- Environment whose vector search returns one candidate above and one
below the default threshold. -/
def envC2 : Env where
  embed := fun _ => .ok []
  search := fun _ _ => .ok
    [{ product_id := "A", product_name := "HI", score := mkRat 17 20 },
     { product_id := "B", product_name := "LO", score := mkRat 1 2 }]
  respond := fun _ => { tool_calls := [], content := "" }
  loads := fun _ => none
  topK := VECTOR_SEARCH_TOP_K
  threshold := CONFIDENCE_THRESHOLD

/-- Witness for C2: a batch with scores 0.85 and 0.50 under the default
threshold keeps exactly the first. -/
theorem threshold_filtering_witness :
    searchProductsFunction envC2 "query" =
      [{ product_name := "HI", confidence := mkRat 17 20 }] := by
  have h := (threshold_filtering envC2 { messages := [], acc := [] } "1" "query"
    [{ product_id := "A", product_name := "HI", score := mkRat 17 20 },
     { product_id := "B", product_name := "LO", score := mkRat 1 2 }] rfl).1
  rw [h]
  rfl


/-- Environment scripting one search round (score 0.999) and then a
terminal empty-object message. -/
def envC5 : Env where
  embed := fun _ => .ok []
  search := fun _ _ => .ok
    [{ product_id := "P1", product_name := "CASTROL", score := mkRat 999 1000 }]
  respond := fun msgs =>
    if msgs.length ≤ 2 then
      { tool_calls := [{ id := "1", name := "search_products",
                         query? := some "Castrol" }], content := "" }
    else { tool_calls := [], content := "done" }
  loads := fun _ => some (.obj [])
  topK := VECTOR_SEARCH_TOP_K
  threshold := CONFIDENCE_THRESHOLD

/-- Counterexample to C5 as stated: a run in which the vector search
reports score 0.999 produces a MatchedProduct with confidence 1.0 — the
rounding in `_search_products_function` rounds up, so the confidence
exceeds the similarity score. -/
theorem confidence_exceeds_score_cex :
    process_transcript envC5 "t" =
      (.ok { matched_products :=
               [{ product_name := "CASTROL", confidence := 1,
                  context := "Castrol" }],
             competitor_advantage_mentioned := false,
             bad_placement_mentioned := false, raw_text := "t" }, 2) ∧
    ¬ ((1 : ℚ) ≤ mkRat 999 1000) :=
  ⟨rfl, by decide⟩

/-- C5 (amended): each accumulator entry produced from a vector-search
candidate carries confidence exactly `round2` of that candidate's score —
a carry-through up to rounding, which can exceed the score by at most
1/200. -/
theorem confidence_rounded_carry (env : Env) (st : LoopState) (i q : String)
    (rs : List SearchResult) (hres : resolveQuery env q = .ok rs) :
    ∀ e ∈ (processToolCall env st
        { id := i, name := "search_products", query? := some q }).acc,
      e ∈ st.acc ∨ ∃ r ∈ rs, env.threshold ≤ r.score ∧
        e.confidence = round2 r.score ∧ e.confidence ≤ r.score + 1/200 := by
  intro e he
  rw [processToolCall_search env st i (some q)] at he
  rcases List.mem_append.mp he with he | he
  · exact Or.inl he
  · right
    rcases List.mem_map.mp he with ⟨f, hf, rfl⟩
    rw [Option.getD_some, searchProductsFunction_ok hres] at hf
    rcases mem_keptResults.mp hf with ⟨r, hr, hs, rfl⟩
    exact ⟨r, hr, hs, rfl, round2_le r.score⟩

/-- The search results returned by `envC5`. -/
def rsC5 : List SearchResult :=
  [{ product_id := "P1", product_name := "CASTROL", score := mkRat 999 1000 }]

/-- The accumulator entry produced from the 0.999-score candidate. -/
def entC5 : AccEntry :=
  { product_name := "CASTROL", confidence := 1, context := "Castrol" }

/-- Witness for C5 (amended) at the scripted 0.999-score candidate. -/
theorem confidence_rounded_carry_witness :
    entC5 ∈ ({ messages := [], acc := [] } : LoopState).acc ∨
      ∃ r ∈ rsC5, envC5.threshold ≤ r.score ∧
        entC5.confidence = round2 r.score ∧
        entC5.confidence ≤ r.score + 1/200 := by
  exact confidence_rounded_carry envC5 { messages := [], acc := [] } "1" "Castrol"
    rsC5 rfl entC5 (by decide)

end ASRApp
